import Mathlib

/-!
Formal model of the `groq_parser` repository: the multi-key Groq completion
client (`f_script_api_v2.py`), the resume-section extractor, the LLM-output
parsing and normalization pipeline (`sscript.py`), and the duplicate-safe
SQLite persistence layer (`main_v2.py`), together with theorems settling the
specification's claims.

External collaborators (the Python standard library's `json` module, `re`
regular-expression semantics for the two fixed patterns used by the code,
SQLite's UNIQUE-constraint behaviour on TEXT columns, and the Groq service
itself) are modelled explicitly; the service and `random.choice` are modelled
as oracle functions supplied through an `Env` record.
-/

/-- Characters treated as whitespace by Python's `str.strip()` and the `\s`
regex class (ASCII fragment: space, tab, newline, carriage return, vertical
tab, form feed). -/
def pyWs (c : Char) : Bool :=
  c == ' ' || c == '\t' || c == '\n' || c == '\r' || c == Char.ofNat 11 || c == Char.ofNat 12

/-- Python `str.strip()` with no arguments: drop leading and trailing
whitespace. -/
def pyStrip (s : String) : String :=
  ⟨((s.data.dropWhile pyWs).reverse.dropWhile pyWs).reverse⟩

/-- Whether `pre` is a prefix of `l` (character lists). -/
def chPrefix : List Char → List Char → Bool
  | [], _ => true
  | _ :: _, [] => false
  | a :: as, b :: bs => a == b && chPrefix as bs

/-- Whether `needle` occurs as a contiguous substring of `hay`
(character lists); models Python's `needle in hay` on strings. -/
def chSub (needle : List Char) : List Char → Bool
  | [] => needle.isEmpty
  | hay@(_ :: t) => chPrefix needle hay || chSub needle t

/-- Python `needle in hay` for strings. -/
def containsSub (hay needle : String) : Bool :=
  chSub needle.data hay.data

/-- Python `str.lower()` (ASCII fragment, which covers every string the code
lowers: Groq error messages and key text). -/
def strLower (s : String) : String := ⟨s.data.map Char.toLower⟩

/-- Boolean membership in a list of strings, modelling Python's
`key in some_set` / `key not in some_set`. -/
def memB (l : List String) (k : String) : Bool := l.any (fun x => x == k)

/-- Python `set.add`: sets are modelled as duplicate-free lists; adding an
element already present leaves the set unchanged. -/
def setInsert (l : List String) (k : String) : List String :=
  if memB l k then l else k :: l

/-- JSON values as produced by Python's `json.loads`.  Numbers with a
fraction or exponent part are kept as their source lexeme in `flt` (the
code never arithmetically uses them); integers are exact. -/
inductive Json where
  | null
  | bool (b : Bool)
  | num (n : Int)
  | flt (raw : String)
  | str (s : String)
  | arr (elems : List Json)
  | obj (fields : List (String × Json))

/-- The left-brace character, written without a brace literal. -/
def lbrace : Char := Char.ofNat 123

/-- The right-brace character, written without a brace literal. -/
def rbrace : Char := Char.ofNat 125

/-- The backtick character, written without a backtick literal. -/
def btick : Char := Char.ofNat 96

/-- The single-quote character. -/
def squote : Char := Char.ofNat 39

mutual

/-- Python `repr` of a JSON-shaped value (used by `str` on containers). -/
def pyRepr : Json → String
  | .null => "None"
  | .bool true => "True"
  | .bool false => "False"
  | .num n => toString n
  | .flt raw => raw
  | .str s => ⟨squote :: s.data ++ [squote]⟩
  | .arr l => ⟨'[' :: (pyReprList l) ++ [']']⟩
  | .obj fields => ⟨lbrace :: (pyReprObj fields) ++ [rbrace]⟩

/-- `repr` of list elements, comma-joined. -/
def pyReprList : List Json → List Char
  | [] => []
  | [x] => (pyRepr x).data
  | x :: y :: t => (pyRepr x).data ++ ',' :: ' ' :: pyReprList (y :: t)

/-- `repr` of dict items, comma-joined. -/
def pyReprObj : List (String × Json) → List Char
  | [] => []
  | [(k, v)] => squote :: k.data ++ squote :: ':' :: ' ' :: (pyRepr v).data
  | (k, v) :: p :: t =>
      squote :: k.data ++ squote :: ':' :: ' ' :: (pyRepr v).data ++ ',' :: ' ' :: pyReprObj (p :: t)

end

/-- Python `str()` of a JSON-shaped value: identity on strings, `repr`
otherwise. -/
def pyStr (v : Json) : String :=
  match v with
  | .str s => s
  | _ => pyRepr v

/-- JSON whitespace accepted between tokens by `json.loads`. -/
def jsonWs (c : Char) : Bool := c == ' ' || c == '\t' || c == '\n' || c == '\r'

/-- Skip JSON inter-token whitespace. -/
def skipJsonWs (l : List Char) : List Char := l.dropWhile jsonWs

/-- Hexadecimal digit value. -/
def hexDigitVal (c : Char) : Option Nat :=
  let n := c.toNat
  if 48 ≤ n && n ≤ 57 then some (n - 48)
  else if 97 ≤ n && n ≤ 102 then some (n - 87)
  else if 65 ≤ n && n ≤ 70 then some (n - 55)
  else none

/-- Combine four hex digits into a code point. -/
def hex4 (a b c d : Char) : Option Nat :=
  match hexDigitVal a, hexDigitVal b, hexDigitVal c, hexDigitVal d with
  | some x, some y, some z, some w => some (((x * 16 + y) * 16 + z) * 16 + w)
  | _, _, _, _ => none

/-- Prepend a character to the parsed-so-far part of a string-body result. -/
def consCh (c : Char) (o : Option (List Char × List Char)) : Option (List Char × List Char) :=
  o.map (fun p => (c :: p.1, p.2))

/-- Parse the body of a JSON string after the opening quote, handling the
escape sequences `json.loads` accepts and rejecting raw control characters
(strict mode).  Returns the decoded characters and the remaining input after
the closing quote.  Lone surrogate `\u` escapes are mapped through `Char.ofNat`
(a divergence from CPython only for surrogate escapes, which the code never
receives). -/
def parseStringBody : List Char → Option (List Char × List Char)
  | '"' :: rest => some ([], rest)
  | '\\' :: '"' :: t => consCh '"' (parseStringBody t)
  | '\\' :: '\\' :: t => consCh '\\' (parseStringBody t)
  | '\\' :: '/' :: t => consCh '/' (parseStringBody t)
  | '\\' :: 'b' :: t => consCh (Char.ofNat 8) (parseStringBody t)
  | '\\' :: 'f' :: t => consCh (Char.ofNat 12) (parseStringBody t)
  | '\\' :: 'n' :: t => consCh '\n' (parseStringBody t)
  | '\\' :: 'r' :: t => consCh '\r' (parseStringBody t)
  | '\\' :: 't' :: t => consCh '\t' (parseStringBody t)
  | '\\' :: 'u' :: a :: b :: c :: d :: t =>
    match hex4 a b c d with
    | some n => consCh (Char.ofNat n) (parseStringBody t)
    | none => none
  | '\\' :: _ => none
  | c :: t => if c.toNat < 32 then none else consCh c (parseStringBody t)
  | [] => none

/-- Digits to a natural number. -/
def digitsToNat (l : List Char) : Nat := l.foldl (fun acc c => acc * 10 + (c.toNat - 48)) 0

/-- Parse a JSON number following Python's tokenizer regex
`(-?(?:0|[1-9]\d*))(\.\d+)?([eE][-+]?\d+)?`: the fraction and exponent are
taken only when complete, otherwise the number ends after the integer part
(the character after it then fails the surrounding grammar, as in CPython).
`NaN`/`Infinity` literals are not modelled (never produced by the service
path exercised here). -/
def parseNumber (l : List Char) : Option (Json × List Char) :=
  let sign : List Char := match l with
    | '-' :: _ => ['-']
    | _ => []
  let l1 := l.drop sign.length
  let intPart : List Char := match l1 with
    | '0' :: _ => ['0']
    | _ => l1.takeWhile Char.isDigit
  if intPart.isEmpty then none
  else
    let l2 := l1.drop intPart.length
    let fracPart : List Char := match l2 with
      | '.' :: t =>
        let ds := t.takeWhile Char.isDigit
        if ds.isEmpty then [] else '.' :: ds
      | _ => []
    let l3 := l2.drop fracPart.length
    let expPart : List Char := match l3 with
      | c :: t =>
        if c == 'e' || c == 'E' then
          let s2 : List Char := match t with
            | '+' :: _ => ['+']
            | '-' :: _ => ['-']
            | _ => []
          let ds := (t.drop s2.length).takeWhile Char.isDigit
          if ds.isEmpty then [] else c :: (s2 ++ ds)
        else []
      | [] => []
    let l4 := l3.drop expPart.length
    if fracPart.isEmpty && expPart.isEmpty then
      let n : Int := Int.ofNat (digitsToNat intPart)
      some (.num (if sign.isEmpty then n else -n), l4)
    else
      some (.flt ⟨sign ++ intPart ++ fracPart ++ expPart⟩, l4)

/-- Insert a key into dict fields, replacing in place when the key exists
(CPython dict semantics: last value wins, first position kept). -/
def objUpsert (fields : List (String × Json)) (k : String) (v : Json) : List (String × Json) :=
  match fields with
  | [] => [(k, v)]
  | (k2, v2) :: t => if k2 == k then (k2, v) :: t else (k2, v2) :: objUpsert t k v

/-- Build a dict from parsed key/value pairs in order. -/
def dictOfPairs (pairs : List (String × Json)) : List (String × Json) :=
  pairs.foldl (fun acc kv => objUpsert acc kv.1 kv.2) []

mutual

/-- Parse one JSON value (fuel-indexed recursion; fuel is an upper bound on
the parser's call depth and is chosen generously by `pyJsonLoads`). -/
def parseVal : Nat → List Char → Option (Json × List Char)
  | 0, _ => none
  | fuel + 1, l =>
    match skipJsonWs l with
    | [] => none
    | c :: rest =>
      if c == lbrace then parseObjBody fuel rest
      else if c == '[' then parseArrBody fuel rest
      else if c == '"' then (parseStringBody rest).map (fun p => (Json.str ⟨p.1⟩, p.2))
      else if c == 't' then
        match rest with
        | 'r' :: 'u' :: 'e' :: r => some (.bool true, r)
        | _ => none
      else if c == 'f' then
        match rest with
        | 'a' :: 'l' :: 's' :: 'e' :: r => some (.bool false, r)
        | _ => none
      else if c == 'n' then
        match rest with
        | 'u' :: 'l' :: 'l' :: r => some (.null, r)
        | _ => none
      else parseNumber (c :: rest)

/-- Parse an array body (input begins after `[`). -/
def parseArrBody : Nat → List Char → Option (Json × List Char)
  | 0, _ => none
  | fuel + 1, l =>
    match skipJsonWs l with
    | ']' :: r => some (.arr [], r)
    | _ => (parseArrItems fuel l).map (fun p => (Json.arr p.1, p.2))

/-- Parse one-or-more comma-separated array items up to `]`. -/
def parseArrItems : Nat → List Char → Option (List Json × List Char)
  | 0, _ => none
  | fuel + 1, l =>
    match parseVal fuel l with
    | none => none
    | some (v, r) =>
      match skipJsonWs r with
      | ',' :: r2 => (parseArrItems fuel r2).map (fun p => (v :: p.1, p.2))
      | ']' :: r2 => some ([v], r2)
      | _ => none

/-- Parse an object body (input begins after the opening brace). -/
def parseObjBody : Nat → List Char → Option (Json × List Char)
  | 0, _ => none
  | fuel + 1, l =>
    match skipJsonWs l with
    | [] => none
    | c :: r =>
      if c == rbrace then some (.obj [], r)
      else (parseObjItems fuel (c :: r)).map (fun p => (Json.obj (dictOfPairs p.1), p.2))

/-- Parse one-or-more `"key": value` members up to the closing brace. -/
def parseObjItems : Nat → List Char → Option (List (String × Json) × List Char)
  | 0, _ => none
  | fuel + 1, l =>
    match l with
    | '"' :: r =>
      match parseStringBody r with
      | none => none
      | some (key, r2) =>
        match skipJsonWs r2 with
        | ':' :: r3 =>
          match parseVal fuel r3 with
          | none => none
          | some (v, r4) =>
            match skipJsonWs r4 with
            | c :: r5 =>
              if c == ',' then
                (parseObjItems fuel (skipJsonWs r5)).map (fun p => ((⟨key⟩, v) :: p.1, p.2))
              else if c == rbrace then some ([(⟨key⟩, v)], r5)
              else none
            | [] => none
        | _ => none
    | _ => none

end

/-- Model of Python `json.loads`: parse one value, then require only
whitespace to remain (otherwise "Extra data" — an error).  Returns `none`
exactly when `json.loads` raises `JSONDecodeError`. -/
def pyJsonLoads (s : String) : Option Json :=
  match parseVal ((s.length + 1) * 4) s.data with
  | some (j, rest) => if (skipJsonWs rest).isEmpty then some j else none
  | none => none

/-- Whether the input begins with a three-backtick fence. -/
def fenceAt (l : List Char) : Bool :=
  match l with
  | a :: b :: c :: _ => a == btick && b == btick && c == btick
  | _ => false

/-- Whether `\s*` followed by a closing fence matches here: some run of
whitespace characters, then three backticks. -/
def wsFence : List Char → Bool
  | [] => false
  | l@(c :: rest) => fenceAt l || (pyWs c && wsFence rest)

/-- The lazy group `(.*?)` of the fence pattern: consume as few characters
as possible until `\s*` followed by a closing fence matches; `none` when no
closing fence exists. -/
def lazyCapture (acc : List Char) : List Char → Option (List Char)
  | [] => none
  | l@(c :: rest) => if wsFence l then some acc.reverse else lazyCapture (c :: acc) rest

/-- Matching attempt after an opening fence has been consumed: the optional
`(?:json)?` (greedy, and consuming it can never lose a match since `json`
contains no backtick), then greedy `\s*`, then the lazy capture group. -/
def afterOpen (l : List Char) : Option (List Char) :=
  let l1 := match l with
    | 'j' :: 's' :: 'o' :: 'n' :: t => t
    | _ => l
  lazyCapture [] (l1.dropWhile pyWs)

/-- Model of `re.search(r'```(?:json)?\s*(.*?)\s*```', raw, re.DOTALL)`:
scan for the leftmost position where the pattern matches and return the
captured group. -/
def searchFence : List Char → Option (List Char)
  | [] => none
  | l@(_ :: rest) =>
    match l with
    | a :: b :: c :: t =>
      if a == btick && b == btick && c == btick then
        match afterOpen t with
        | some cap => some cap
        | none => searchFence rest
      else searchFence rest
    | _ => searchFence rest

/-- Longest prefix of `l` ending in the character `c` (greedy `.*` followed
by `c`, DOTALL): everything up to the last occurrence of `c`. -/
def greedyTo (c : Char) (l : List Char) : Option (List Char) :=
  let r := l.reverse.dropWhile (fun x => !(x == c))
  if r.isEmpty then none else some r.reverse

/-- Model of `re.search(r'(\[.*\]|\{.*\})', raw, re.DOTALL)`: at the leftmost
viable position, prefer the bracket alternative, capturing greedily to the
last matching closer anywhere to the right. -/
def searchBrackets : List Char → Option (List Char)
  | [] => none
  | c :: rest =>
    if c == '[' then
      match greedyTo ']' rest with
      | some inner => some ('[' :: inner)
      | none => searchBrackets rest
    else if c == lbrace then
      match greedyTo rbrace rest with
      | some inner => some (lbrace :: inner)
      | none => searchBrackets rest
    else searchBrackets rest

/-- `sscript.process_resumes` json_str extraction: try the backtick fence
first, then the bracket-or-brace pattern. -/
def extractJsonStr (raw : String) : Option String :=
  match searchFence raw.data with
  | some cap => some ⟨cap⟩
  | none =>
    match searchBrackets raw.data with
    | some cap => some ⟨cap⟩
    | none => none

/-- Per-value branch of `sscript.normalize_json_data`: lists join their
elements' `str()` forms with ", "; `None` becomes the empty string; every
other value is coerced with `str()`. -/
def normalizeValue : Json → String
  | .arr l => String.intercalate ", " (l.map pyStr)
  | .null => ""
  | v => pyStr v

/-- `sscript.normalize_json_data` applied to the per-record loop: `none`
models the `AttributeError` raised when a list element is not a dict
(`record.items()`), which the caller's `except Exception` turns into a
skipped file. -/
def normRecords : List Json → Option (List (List (String × String)))
  | [] => some []
  | .obj fields :: t =>
    (normRecords t).map (fun rest => fields.map (fun kv => (kv.1, normalizeValue kv.2)) :: rest)
  | _ :: _ => none

/-- `sscript.normalize_json_data`: processes a list of records; any other
input yields the empty list (the function's final `return []`). -/
def normalize_json_data : Json → Option (List (List (String × String)))
  | .arr l => normRecords l
  | _ => some []

/-- The fixed 12-column schema shared by `sscript.process_resumes` and
`main_v2.process_and_normalize_df`. -/
def requiredColumns : List String :=
  ["Name", "Emails", "Mobile", "Present Salary", "Expected Salary",
   "Date of Birth", "Permanent Address", "Company with Duration",
   "Job Title with Duration", "Institution", "Graduation",
   "Total Years of experience"]

/-- First-match lookup in a string association list (pandas column access
for a given record's cell). -/
def strLookup : List (String × String) → String → Option String
  | [], _ => none
  | (k, v) :: t, c => if k == c then some v else strLookup t c

/-- The final per-cell cleanup of `process_resumes`:
`astype(str).replace('nan', '').replace('None', '')` — exact-match
replacement of the strings `nan` and `None` by the empty string. -/
def fixNanNone (v : String) : String :=
  if v == "nan" || v == "None" then "" else v

/-- One cell of the final DataFrame: the record's value for the column when
present (missing cells are NaN, which `astype(str)` renders as `nan` and the
replacement clears — modelled directly as the empty string), then the
nan/None cleanup. -/
def rowValue (r : List (String × String)) (c : String) : String :=
  fixNanNone ((strLookup r c).getD "")

/-- One row of the final DataFrame, in fixed column order. -/
def buildRow (r : List (String × String)) : List String :=
  requiredColumns.map (rowValue r)

/-- First-match lookup among a dict's fields. -/
def jsonLookup : List (String × Json) → String → Option Json
  | [], _ => none
  | (k, v) :: t, c => if k == c then some v else jsonLookup t c

/-- Helper for Python `x == "key"` inside list membership. -/
def jsonEqStr (x : Json) (s : String) : Bool :=
  match x with
  | .str t => t == s
  | _ => false

/-- The `else` branch of `process_resumes` per-file handling:
`normalize_json_data([content] if not isinstance(content, list) else content)`;
a `none` from normalization (exception) means the file is skipped and
contributes nothing. -/
def elseBranch (content : Json) : List (List (String × String)) :=
  let data := match content with
    | .arr _ => content
    | _ => Json.arr [content]
  (normalize_json_data data).getD []

/-- Records contributed by one JSON file in `process_resumes`: the
`'raw_llm_output' in content` test follows Python `in` semantics per type
(dict: key test; list: element membership; str: substring; otherwise a
`TypeError` caught by the per-file handler). -/
def perFile (content : Json) : List (List (String × String)) :=
  match content with
  | .obj fields =>
    if fields.any (fun kv => kv.1 == "raw_llm_output") then
      match jsonLookup fields "raw_llm_output" with
      | some (.str raw) =>
        match extractJsonStr raw with
        | some js =>
          match pyJsonLoads js with
          | some data =>
            let wrapped := match data with
              | .arr _ => data
              | _ => Json.arr [data]
            (normalize_json_data wrapped).getD []
          | none => []
        | none => []
      | _ => []
    else elseBranch content
  | .arr l =>
    if l.any (fun x => jsonEqStr x "raw_llm_output") then [] else elseBranch content
  | .str s =>
    if containsSub s "raw_llm_output" then [] else elseBranch content
  | _ => []

/-- `sscript.process_resumes` over the parsed contents of the folder's JSON
files: collect each file's records, and when any exist, emit one row per
record reconciled against the fixed 12-column schema. -/
def process_resumes (files : List Json) : List (List String) :=
  let records := (files.map perFile).flatten
  if records.isEmpty then [] else records.map buildRow

/-- Errors a call into the client model can surface, mirroring the Python
exception classes the code raises or lets propagate.  `groqApi` is the
code's single `GroqAPIError` class with its message and (for
`raise ... from e`) the wrapped underlying error's message; `indexError`
is `random.choice` on an empty sequence; `fuelOut` is a model artefact that
provably never occurs at the fuel bounds used. -/
inductive PyErr where
  | groqApi (msg : String) (wrapped : Option String)
  | indexError
  | valueError (msg : String)
  | attributeError
  | fuelOut
deriving DecidableEq

/-- Outcome of one `chat.completions.create` attempt: the response's message
content, or the raised exception's message text. -/
inductive CallOutcome where
  | ok (content : String)
  | exn (msg : String)

/-- Oracles for the external nondeterminism: `pick` drives `random.choice`
(the chosen index, taken modulo the list length), `probe` gives the outcome
of the minimal validation call for a key (`none` = call succeeded, `some msg`
= exception with that message), and `call` gives the outcome of the i-th
completion attempt of a `create_chat_completion` invocation. -/
structure Env where
  pick : Nat → Nat
  probe : Nat → String → Option String
  call : Nat → CallOutcome

/-- Mutable state of `MultiGroqClient`: the validated key list, the `used`
and `invalid` sets, the key of `current_client`, and counters threading the
oracles. -/
structure ClientState where
  api_keys : List String
  used_keys : List String
  invalid_keys : List String
  current_key : String
  pickCtr : Nat
  probeCtr : Nat
deriving DecidableEq

/-- `MultiGroqClient._validate_api_key`: a probe exception whose lowered text
contains `invalid_api_key`, or whose raw text contains `401`, means the key
is invalid; any other exception (or success) counts as valid. -/
def validateKey (env : Env) (t : Nat) (k : String) : Bool :=
  match env.probe t k with
  | none => true
  | some emsg => !(containsSub (strLower emsg) "invalid_api_key" || containsSub emsg "401")

/-- `random.choice` over a list, driven by the `pick` oracle; the empty
sequence raises `IndexError`. -/
def pyChoice (env : Env) (ctr : Nat) (l : List String) : Option String :=
  l[env.pick ctr % l.length]?

/-- Number of keys not yet marked invalid — the strictly decreasing measure
of `_initialize_client`'s recursion. -/
def poolLeft (s : ClientState) : Nat :=
  (s.api_keys.filter (fun k => !memB s.invalid_keys k)).length

/-- `available_keys` as first computed by `_initialize_client`: keys neither
used nor invalid. -/
def avail0 (s : ClientState) : List String :=
  s.api_keys.filter (fun k => !memB s.used_keys k && !memB s.invalid_keys k)

/-- The candidate list `random.choice` draws from: the initial list when
non-empty, otherwise (after the used-set reset) all non-invalid keys. -/
def availableOf (s : ClientState) : List String :=
  if (avail0 s).isEmpty then s.api_keys.filter (fun k => !memB s.invalid_keys k) else avail0 s

/-- `MultiGroqClient._initialize_client`, fuel-indexed (the recursion in the
source is bounded by the pool size; `initializeClient` supplies fuel
exceeding `poolLeft`, at which `fuelOut` is proven unreachable).  Picks a
random key that is neither used nor invalid (resetting the used set when
none remain, unless every key is invalid, which raises
`GroqAPIError("All API keys are invalid")`), probes it, marks it invalid and
recurses when the probe classifies it as rejected, and otherwise marks it
used and makes it current. -/
def initClientFuel (env : Env) : Nat → ClientState → Except PyErr (ClientState × String)
  | 0, _ => .error .fuelOut
  | fuel + 1, s =>
    if (avail0 s).isEmpty && (s.invalid_keys.length == s.api_keys.length) then
      .error (.groqApi "All API keys are invalid" none)
    else
      match pyChoice env s.pickCtr (availableOf s) with
      | none => .error .indexError
      | some selected =>
        let used1 := if (avail0 s).isEmpty then [] else s.used_keys
        if validateKey env s.probeCtr selected then
          .ok ({ s with
                 used_keys := setInsert used1 selected
                 current_key := selected
                 pickCtr := s.pickCtr + 1
                 probeCtr := s.probeCtr + 1 }, selected)
        else
          initClientFuel env fuel
            { s with
              used_keys := used1
              invalid_keys := setInsert s.invalid_keys selected
              pickCtr := s.pickCtr + 1
              probeCtr := s.probeCtr + 1 }

/-- `MultiGroqClient._initialize_client` at its always-sufficient fuel. -/
def initializeClient (env : Env) (s : ClientState) : Except PyErr (ClientState × String) :=
  initClientFuel env (poolLeft s + 1) s

/-- The auth-rejection test of `create_chat_completion`:
`"invalid_api_key" in str(e).lower() or "401" in str(e).lower()`. -/
def isAuthMsg (msg : String) : Bool :=
  containsSub (strLower msg) "invalid_api_key" || containsSub (strLower msg) "401"

/-- The retry loop of `MultiGroqClient.create_chat_completion`.  The fuel
argument equals `max_retries - retries` (so the guard `retries <
max_retries` is the `fuel = 0` test and `retries + 1 < max_retries` is
`0 < fuel`); `retries` doubles as the attempt index for the `call` oracle.
Returns the number of attempts made together with the result: the first
successful response, `.ok none` for the loop falling through (empty pool
only), or the propagated error.  On each failure the key is invalidated if
the error text is classified as an auth rejection, and unless the budget is
spent the client is reinitialized (a `GroqAPIError` from that, or any other
exception, propagates); a spent budget raises
`GroqAPIError("All API keys failed or are invalid") from e`. -/
def ccLoop (env : Env) : Nat → ClientState → Nat → Nat × Except PyErr (Option String)
  | 0, _, retries => (retries, .ok none)
  | fuel + 1, s, retries =>
    match env.call retries with
    | .ok content => (retries + 1, .ok (some content))
    | .exn msg =>
      let s1 := { s with invalid_keys := if isAuthMsg msg then setInsert s.invalid_keys s.current_key else s.invalid_keys }
      if 0 < fuel then
        match initializeClient env s1 with
        | .ok (s2, _) => ccLoop env fuel s2 (retries + 1)
        | .error e => (retries + 1, .error e)
      else
        (retries + 1, .error (.groqApi "All API keys failed or are invalid" (some msg)))

/-- `MultiGroqClient.create_chat_completion`: the retry loop with
`max_retries = len(self.api_keys)`. -/
def createChatCompletion (env : Env) (s : ClientState) : Nat × Except PyErr (Option String) :=
  ccLoop env s.api_keys.length s 0

/-- `MultiGroqClient._is_valid_key_format`: the stripped key must match
`^gsk_[A-Za-z0-9]{32,}$`. -/
def isValidKeyFormat (key : String) : Bool :=
  let k := (pyStrip key).data
  chPrefix "gsk_".data k &&
    (let rest := k.drop 4
     decide (32 ≤ rest.length) && rest.all (fun c => c.isAlpha || c.isDigit))

/-- `MultiGroqClient.__init__`: reject empty input, keep only
valid-format keys (stripped), reject when none remain, then select an
initial client via `_initialize_client`. -/
def mkMultiGroqClient (env : Env) (keys : List String) : Except PyErr ClientState :=
  if keys.isEmpty then .error (.valueError "No API keys provided")
  else
    let apiKeys := (keys.filter isValidKeyFormat).map pyStrip
    if apiKeys.isEmpty then .error (.valueError "No valid API keys found")
    else
      match initializeClient env ⟨apiKeys, [], [], "", 0, 0⟩ with
      | .ok (s, _) => .ok s
      | .error e => .error e

/-- `json.loads` of the model output with the `JSONDecodeError` fallback of
`ResumeProcessor.process_with_llm` (lines 286-290): unparseable responses
become `{"raw_llm_output": <full response text>}`. -/
def processLLMContent (content : String) : Json :=
  match pyJsonLoads content with
  | some j => j
  | none => Json.obj [("raw_llm_output", Json.str content)]

/-- `ResumeProcessor.process_with_llm` around a completed (or failed)
`create_chat_completion` call: a successful response is parsed with the
fallback above; a `GroqAPIError` is caught and turned into an
`{"error": ...}` record; any other exception propagates.  (`.ok none`, the
fall-through `None` response, would fail attribute access on
`response.choices`.) -/
def processWithLLM (cc : Except PyErr (Option String)) : Except PyErr Json :=
  match cc with
  | .ok (some content) => .ok (processLLMContent content)
  | .ok none => .error .attributeError
  | .error (.groqApi msg _) => .ok (Json.obj [("error", Json.str ("LLM processing failed: " ++ msg))])
  | .error e => .error e

/-- The per-document inputs of one batch entry: the outcome of
`extract_from_pdf` and the outcome of the document's completion call. -/
structure DocRun where
  extractRes : Except PyErr (List String)
  ccRes : Except PyErr (Option String)

/-- `ResumeProcessor.process_all_resumes`: every document is processed in
turn; the per-document `try/except Exception` converts any raised error into
a skipped document (`none`) and the loop always continues to the next
document — no outcome aborts the remainder of the batch. -/
def processAllResumes (docs : List DocRun) : List (Option Json) :=
  docs.map (fun d =>
    match d.extractRes with
    | .error _ => none
    | .ok _ =>
      match processWithLLM d.ccRes with
      | .ok j => some j
      | .error _ => none)

/-- Pattern `^[A-Z\s&-]+$`: one or more of uppercase letters, whitespace,
ampersand, hyphen, spanning the whole line. -/
def headerPat1 (cs : List Char) : Bool :=
  !cs.isEmpty && cs.all (fun c => c.isUpper || pyWs c || c == '&' || c == '-')

/-- The fixed section keywords of the second header pattern. -/
def sectionKeywords : List String :=
  ["EDUCATION", "EXPERIENCE", "SKILLS", "PROJECTS", "SUMMARY", "WORK",
   "CONTACT", "ACHIEVEMENTS", "CERTIFICATIONS", "LANGUAGES"]

/-- Pattern `^(EDUCATION|EXPERIENCE|...)`: the line starts with one of the
keywords (`re.match` anchors only at the start). -/
def headerPat2 (cs : List Char) : Bool :=
  sectionKeywords.any (fun kw => chPrefix kw.data cs)

/-- Pattern `^[A-Z][a-zA-Z\s]+:`: an uppercase letter, then at least one
letter or whitespace, then a colon (as a prefix match; a colon cannot occur
inside the greedy letter run, so the run is exactly the maximal one). -/
def headerPat3 (cs : List Char) : Bool :=
  match cs with
  | c :: rest =>
    let run := rest.takeWhile (fun x => x.isAlpha || pyWs x)
    c.isUpper && !run.isEmpty &&
      (match rest.drop run.length with
       | ':' :: _ => true
       | _ => false)
  | [] => false

/-- Pattern `^[A-Z][a-zA-Z\s]{2,30}$`: an uppercase letter followed by 2 to
30 letters or whitespace, spanning the whole line. -/
def headerPat4 (cs : List Char) : Bool :=
  match cs with
  | c :: rest =>
    c.isUpper && decide (2 ≤ rest.length) && decide (rest.length ≤ 30) &&
      rest.all (fun x => x.isAlpha || pyWs x)
  | [] => false

/-- `ResumeProcessor._is_likely_header`: any of the four patterns matches
the stripped line. -/
def isLikelyHeader (line : String) : Bool :=
  let cs := (pyStrip line).data
  headerPat1 cs || headerPat2 cs || headerPat3 cs || headerPat4 cs

/-- One heading-delimited section of the extracted document. -/
structure Sec where
  heading : String
  content : List String
deriving DecidableEq

/-- One line of the extraction loop in `ResumeProcessor.extract_from_pdf`:
blank lines are dropped; a header line flushes the current section when it
has a heading or content (Python truthiness) and starts a new one; any other
line appends to the current section's content. -/
def sectionStep (acc : List Sec × Sec) (line : String) : List Sec × Sec :=
  let clean := pyStrip line
  if clean.isEmpty then acc
  else if isLikelyHeader clean then
    let flushed := if !acc.2.heading.isEmpty || !acc.2.content.isEmpty
      then acc.1 ++ [acc.2] else acc.1
    (flushed, ⟨clean, []⟩)
  else
    (acc.1, ⟨acc.2.heading, acc.2.content ++ [clean]⟩)

/-- The section structure `extract_from_pdf` produces for a page's lines:
fold the per-line step from an empty current section, then flush the final
section when non-empty. -/
def extractSections (lines : List String) : List Sec :=
  let acc := lines.foldl sectionStep ([], ⟨"", []⟩)
  if !acc.2.heading.isEmpty || !acc.2.content.isEmpty then acc.1 ++ [acc.2] else acc.1

/-- `main_v2.normalize_data`: lists join their elements' `str()` forms with
", "; `None` (and pandas NA, which the string-valued records here never
contain except as `None`) becomes the empty string; every other value is
coerced with `str()`. -/
def normalize_data : Json → String
  | .arr l => String.intercalate ", " (l.map pyStr)
  | .null => ""
  | v => pyStr v

/-- One normalized cell of `main_v2.process_and_normalize_df`: the record's
value for the column passed through `normalize_data`, or the empty string
for a column absent from the record. -/
def normField (r : List (String × Json)) (c : String) : String :=
  ((jsonLookup r c).map normalize_data).getD ""

/-- One row of the `resumes` table (a `StoredRecord`): the 12 schema fields
plus `created_at`.  The generated `id` plays no role in the uniqueness
behaviour and is omitted. -/
structure DBRow where
  name : String
  emails : String
  mobile : String
  present_salary : String
  expected_salary : String
  date_of_birth : String
  permanent_address : String
  company_with_duration : String
  job_title_with_duration : String
  institution : String
  graduation : String
  total_years_of_experience : String
  created_at : String
deriving DecidableEq

/-- The row `insert_to_db` binds for one normalized record, tagged with the
batch's single `current_time`. -/
def mkRow (t : String) (r : List (String × Json)) : DBRow :=
  ⟨normField r "Name", normField r "Emails", normField r "Mobile",
   normField r "Present Salary", normField r "Expected Salary",
   normField r "Date of Birth", normField r "Permanent Address",
   normField r "Company with Duration", normField r "Job Title with Duration",
   normField r "Institution", normField r "Graduation",
   normField r "Total Years of experience", t⟩

/-- SQLite's UNIQUE constraints on `emails` and `mobile`: an insert raises
`IntegrityError` exactly when some stored row already holds the same
`emails` value or the same `mobile` value (all bound values are TEXT, never
NULL, so the empty string participates in uniqueness like any value). -/
def rowConflicts (db : List DBRow) (row : DBRow) : Bool :=
  db.any (fun x => x.emails == row.emails || x.mobile == row.mobile)

/-- The insert loop of `insert_to_db`: each row is attempted in order; an
`IntegrityError` is caught and the row skipped, otherwise the row is
appended and counted. -/
def insertLoop : List DBRow → List DBRow → List DBRow × Nat
  | db, [] => (db, 0)
  | db, row :: rest =>
    if rowConflicts db row then insertLoop db rest
    else
      let next := insertLoop (db ++ [row]) rest
      (next.1, next.2 + 1)

/-- `main_v2.insert_to_db`: normalize the records against the schema (via
`normField`/`mkRow`, modelling `process_and_normalize_df` and the column
renaming), insert them with duplicate skipping, and return the final table
with `(inserted_records, total_records)`. -/
def insert_to_db (t : String) (db : List DBRow) (records : List (List (String × Json))) :
    List DBRow × Nat × Nat :=
  let rows := records.map (mkRow t)
  let res := insertLoop db rows
  (res.1, res.2, records.length)

/-- Whether a JSON value is a list (Python `isinstance(value, list)`). -/
def isJsonArr : Json → Bool
  | .arr _ => true
  | _ => false

/-- Whether a JSON value is `None`. -/
def isJsonNull : Json → Bool
  | .null => true
  | _ => false

/-- A valid-format test key (`gsk_` plus 32 alphanumerics). -/
def gskA : String := "gsk_aaaaaaaaaaaaaaaaaaaaaaaaaaaaaaaa"

/-- A second, distinct valid-format test key. -/
def gskB : String := "gsk_bbbbbbbbbbbbbbbbbbbbbbbbbbbbbbbb"

/-- An environment in which every completion attempt and every probe fails
with an auth-classified error. -/
def envAllFail : Env :=
  ⟨fun _ => 0,
   fun _ _ => some "Error code: 401 - invalid_api_key",
   fun _ => .exn "Error code: 401 - invalid_api_key"⟩

/-- An environment whose first completion attempt succeeds and whose probes
all succeed. -/
def envOkFirst : Env := ⟨fun _ => 0, fun _ _ => none, fun _ => .ok "hello"⟩

/-- A two-key client state (distinct keys), first key current and used. -/
def cexState : ClientState := ⟨[gskA, gskB], [gskA], [], gskA, 0, 0⟩

/-- A client state whose pool holds the same key twice (reachable through the
constructor, which does not deduplicate). -/
def dupState : ClientState := ⟨[gskA, gskA], [], [], gskA, 0, 0⟩

/-- A fresh single-key client state. -/
def oneKeyState : ClientState := ⟨[gskA], [], [], gskA, 0, 0⟩

/-- The state `_initialize_client` produces from `oneKeyState` under
`envOkFirst`. -/
def oneKeyStateAfter : ClientState := ⟨[gskA], [gskA], [], gskA, 1, 1⟩

/-- The C6 test response body: a fenced code block around a JSON array. -/
def fencedContent : String := "```json\n[\x7b\"Name\":\"X\"\x7d]\n```"

/-- The fallback record `process_with_llm` builds for `fencedContent`. -/
def fallbackRecord : Json := Json.obj [("raw_llm_output", Json.str fencedContent)]

/-- A batch document whose completion call raised pool exhaustion. -/
def exhaustedDoc : DocRun := ⟨.ok ["resume text"], .error (.groqApi "All API keys are invalid" none)⟩

/-- A batch document whose completion call succeeded with an empty object. -/
def healthyDoc : DocRun := ⟨.ok ["resume text"], .ok (some "\x7b\x7d")⟩

/-- Test record: Alice with a contact email and mobile. -/
def recAlice : List (String × Json) :=
  [("Name", Json.str "Alice"), ("Emails", Json.str "a@x.com"), ("Mobile", Json.str "111")]

/-- Test record: Bob, sharing Alice's email but with a different mobile. -/
def recBob : List (String × Json) :=
  [("Name", Json.str "Bob"), ("Emails", Json.str "a@x.com"), ("Mobile", Json.str "222")]

/-- Test record with no email field at all and mobile 333. -/
def recCarol : List (String × Json) :=
  [("Name", Json.str "Carol"), ("Mobile", Json.str "333")]

/-- Test record with no email field at all and mobile 444. -/
def recDan : List (String × Json) :=
  [("Name", Json.str "Dan"), ("Mobile", Json.str "444")]

/-- Test record with an email but no mobile field. -/
def recEve : List (String × Json) :=
  [("Name", Json.str "Eve"), ("Emails", Json.str "e@x.com")]

/-- Test record with a different email and no mobile field. -/
def recFrank : List (String × Json) :=
  [("Name", Json.str "Frank"), ("Emails", Json.str "f@x.com")]

/-- A fixed timestamp for insert tests. -/
def ts0 : String := "2024-01-01 00:00:00"

/-- Non-header content line for the section-extraction witness. -/
def contentLine1 : String := "studied physics at mit, 2001"

/-- Second non-header content line for the section-extraction witness. -/
def contentLine2 : String := "graduated with honors in 2005"

/-- Invariant of the invalid-key set: duplicate-free (it models a Python
set) and drawn from the pool. -/
def InvOK (s : ClientState) : Prop :=
  s.invalid_keys.Nodup ∧ ∀ k ∈ s.invalid_keys, k ∈ s.api_keys

/-- Well-formedness of a client state as established by the constructor and
preserved by every operation: a duplicate-free pool, a well-formed invalid
set, and a current key drawn from the pool. -/
def StateOK (s : ClientState) : Prop :=
  s.api_keys.Nodup ∧ InvOK s ∧ s.current_key ∈ s.api_keys

/-- A fresh two-key client state with distinct keys. -/
def twoKeyState : ClientState := ⟨[gskA, gskB], [], [], gskA, 0, 0⟩

lemma insertLoop_append (rows : List DBRow) : ∀ db, ∃ added, insertLoop db rows = (db ++ added, added.length) := by
  induction rows with
  | nil => intro db; exact ⟨[], by simp [insertLoop]⟩
  | cons row rest ih =>
    intro db
    by_cases h : rowConflicts db row = true
    · obtain ⟨added, hadd⟩ := ih db
      exact ⟨added, by simp [insertLoop, h, hadd]⟩
    · obtain ⟨added, hadd⟩ := ih (db ++ [row])
      refine ⟨row :: added, ?_⟩
      simp [insertLoop, h, hadd]

lemma insert_pair_skip (t : String) (r1 r2 : List (String × Json))
    (h : rowConflicts [mkRow t r1] (mkRow t r2) = true) :
    insert_to_db t [] [r1, r2] = ([mkRow t r1], 1, 2) := by
  have h0 : rowConflicts [] (mkRow t r1) = false := rfl
  simp [insert_to_db, insertLoop, h0, h]

lemma email_eq_conflict (t : String) (r1 r2 : List (String × Json))
    (h : normField r1 "Emails" = normField r2 "Emails") :
    rowConflicts [mkRow t r1] (mkRow t r2) = true := by
  have hb : ((mkRow t r1).emails == (mkRow t r2).emails) = true := beq_iff_eq.mpr h
  simp [rowConflicts, hb]

lemma mobile_eq_conflict (t : String) (r1 r2 : List (String × Json))
    (h : normField r1 "Mobile" = normField r2 "Mobile") :
    rowConflicts [mkRow t r1] (mkRow t r2) = true := by
  have hb : ((mkRow t r1).mobile == (mkRow t r2).mobile) = true := beq_iff_eq.mpr h
  simp [rowConflicts, hb]

example : (buildRow []).length = 12 := rfl
example (r : List (String × String)) : (buildRow r).length = 12 := rfl


/-- Claim C5: inserting two normalized records that share the same email value
into an empty store keeps exactly the first and returns
`(inserted, total) = (1, 2)`; in general `insert_to_db` counts every record
in `total`, appends (never overwrites) the non-conflicting ones in order,
reports their number as `inserted`, and skips any record whose row conflicts
with the table at its turn. -/
theorem c5_insert_dedup :
    (∀ (t : String) (r1 r2 : List (String × Json)),
       normField r1 "Emails" = normField r2 "Emails" →
       insert_to_db t [] [r1, r2] = ([mkRow t r1], 1, 2)) ∧
    (∀ (t : String) (db : List DBRow) (records : List (List (String × Json))),
       ∃ added, (insert_to_db t db records).1 = db ++ added ∧
         (insert_to_db t db records).2.1 = added.length ∧
         (insert_to_db t db records).2.2 = records.length) ∧
    (∀ (t : String) (db : List DBRow) (r : List (String × Json)) (rest : List (List (String × Json))),
       rowConflicts db (mkRow t r) = true →
       (insert_to_db t db (r :: rest)).1 = (insert_to_db t db rest).1 ∧
       (insert_to_db t db (r :: rest)).2.1 = (insert_to_db t db rest).2.1) := by
  refine ⟨?_, ?_, ?_⟩
  · intro t r1 r2 h
    exact insert_pair_skip t r1 r2 (email_eq_conflict t r1 r2 h)
  · intro t db records
    obtain ⟨added, hadd⟩ := insertLoop_append (records.map (mkRow t)) db
    exact ⟨added, by simp [insert_to_db, hadd]⟩
  · intro t db r rest h
    simp [insert_to_db, insertLoop, h]


/-- Claim C8: both `normalize_json_data`'s per-value step and
`main_v2.normalize_data` map the list `["a","b"]` to `"a, b"` (and in
general join list elements' `str()` forms with ", "), map `null` to the
empty string, and coerce every other value to its `str()` form; a field
missing from a record yields the empty string in both pipelines, and every
produced row carries all 12 schema columns as strings. -/
theorem c8_field_normalization :
    (normalizeValue (Json.arr [Json.str "a", Json.str "b"]) = "a, b" ∧
     normalize_data (Json.arr [Json.str "a", Json.str "b"]) = "a, b") ∧
    (normalizeValue Json.null = "" ∧ normalize_data Json.null = "") ∧
    (∀ l : List Json, normalizeValue (Json.arr l) = String.intercalate ", " (l.map pyStr) ∧
       normalize_data (Json.arr l) = String.intercalate ", " (l.map pyStr)) ∧
    (∀ v : Json, isJsonArr v = false → isJsonNull v = false →
       normalizeValue v = pyStr v ∧ normalize_data v = pyStr v) ∧
    (∀ (r : List (String × String)) (c : String), strLookup r c = none → rowValue r c = "") ∧
    (∀ (r : List (String × Json)) (c : String), jsonLookup r c = none → normField r c = "") ∧
    (∀ r : List (String × String), (buildRow r).length = 12) := by
  refine ⟨⟨rfl, rfl⟩, ⟨rfl, rfl⟩, fun l => ⟨rfl, rfl⟩, ?_, ?_, ?_, fun r => rfl⟩
  · intro v h1 h2
    cases v <;> simp_all [isJsonArr, isJsonNull, normalizeValue, normalize_data, pyStr]
  · intro r c h
    simp only [rowValue, h]
    rfl
  · intro r c h
    simp only [normField, h]
    rfl


/-- Claim C9: a page whose text is the line "EDUCATION" followed by two
non-blank, non-header content lines is extracted as exactly one section with
heading "EDUCATION" and those two (stripped) lines as content, in order. -/
theorem c9_education_section (c1 c2 : String)
    (h1 : (pyStrip c1).isEmpty = false) (h2 : (pyStrip c2).isEmpty = false)
    (h3 : isLikelyHeader (pyStrip c1) = false) (h4 : isLikelyHeader (pyStrip c2) = false) :
    extractSections ["EDUCATION", c1, c2] = [⟨"EDUCATION", [pyStrip c1, pyStrip c2]⟩] := by
  have e0 : sectionStep ([], ⟨"", []⟩) "EDUCATION" = ([], ⟨"EDUCATION", []⟩) := rfl
  have e1 : sectionStep ([], ⟨"EDUCATION", []⟩) c1 = ([], ⟨"EDUCATION", [pyStrip c1]⟩) := by
    simp [sectionStep, h1, h3]
  have e2 : sectionStep ([], ⟨"EDUCATION", [pyStrip c1]⟩) c2 =
      ([], ⟨"EDUCATION", [pyStrip c1, pyStrip c2]⟩) := by
    simp [sectionStep, h2, h4]
  show (let acc := ["EDUCATION", c1, c2].foldl sectionStep ([], ⟨"", []⟩)
        if !acc.2.heading.isEmpty || !acc.2.content.isEmpty then acc.1 ++ [acc.2] else acc.1) = _
  simp only [List.foldl, e0, e1, e2]
  rfl


/-- Claim C6: for the response body ```` ```json\n[{"Name":"X"}]\n``` ````,
`process_with_llm` falls back to a `raw_llm_output` record (the body is not
valid JSON), and `process_resumes` then extracts the fenced array and
produces exactly one row whose Name column is "X" and whose other 11 schema
columns are the empty string. -/
theorem c6_fenced_block_extraction :
    processWithLLM (.ok (some fencedContent)) = .ok fallbackRecord ∧
    process_resumes [fallbackRecord] =
      [["X", "", "", "", "", "", "", "", "", "", "", ""]] := ⟨rfl, rfl⟩


/-- Claim C7: an unparseable response body such as "I cannot process this" does
not fail the document: `process_with_llm` returns the fallback record
`{raw_llm_output: <full response text>}`. -/
theorem c7_unparseable_fallback :
    processWithLLM (.ok (some "I cannot process this")) =
      .ok (Json.obj [("raw_llm_output", Json.str "I cannot process this")]) := rfl


/-- Claim C4 (code bug): pool exhaustion does NOT abort the batch.  In a
two-document batch whose first document's completion call raises
`GroqAPIError("All API keys are invalid")`, `process_with_llm` swallows the
error into an `{"error": ...}` record and the loop continues: both documents
are processed.  In general the batch driver visits every document regardless
of outcomes.  The specification's propagation policy (exhaustion aborts the
remaining batch, "not silently swallowed") is therefore violated by the
code. -/
theorem c4_exhaustion_swallowed_batch_continues :
    processAllResumes [exhaustedDoc, healthyDoc] =
      [some (Json.obj [("error", Json.str "LLM processing failed: All API keys are invalid")]),
       some (Json.obj [])] ∧
    ∀ docs : List DocRun, (processAllResumes docs).length = docs.length :=
  ⟨rfl, fun docs => by simp [processAllResumes]⟩


/-- Witness for C9 at concrete content lines, with the hypotheses evaluated. -/
theorem c9_education_section_witness : (pyStrip contentLine1).isEmpty = false ∧
    isLikelyHeader (pyStrip contentLine1) = false ∧
    isLikelyHeader "EDUCATION" = true ∧
    extractSections ["EDUCATION", contentLine1, contentLine2] =
      [⟨"EDUCATION", [pyStrip contentLine1, pyStrip contentLine2]⟩] :=
  ⟨rfl, rfl, rfl, c9_education_section contentLine1 contentLine2 rfl rfl rfl rfl⟩


/-- Witness for C5 at two concrete records sharing an email. -/
theorem c5_insert_dedup_witness :
    normField recAlice "Emails" = "a@x.com" ∧ normField recBob "Emails" = "a@x.com" ∧
    normField recAlice "Mobile" = "111" ∧ normField recBob "Mobile" = "222" ∧
    insert_to_db ts0 [] [recAlice, recBob] = ([mkRow ts0 recAlice], 1, 2) :=
  ⟨rfl, rfl, rfl, rfl, c5_insert_dedup.1 ts0 recAlice recBob rfl⟩

lemma memB_iff {l : List String} {k : String} : memB l k = true ↔ k ∈ l := by
  simp [memB, List.any_eq_true, beq_iff_eq]

lemma memB_false_iff {l : List String} {k : String} : memB l k = false ↔ k ∉ l := by
  rw [← Bool.not_eq_true, not_iff_not, memB_iff]

lemma mem_setInsert {l : List String} {a k : String} : k ∈ setInsert l a ↔ k ∈ l ∨ k = a := by
  unfold setInsert
  by_cases h : memB l a = true
  · simp only [h, if_true]
    constructor
    · exact Or.inl
    · rintro (h1 | rfl)
      · exact h1
      · exact memB_iff.mp h
  · simp only [h, Bool.false_eq_true, if_false, List.mem_cons]
    tauto

lemma setInsert_nodup {l : List String} {a : String} (h : l.Nodup) : (setInsert l a).Nodup := by
  unfold setInsert
  by_cases hm : memB l a = true
  · simpa [hm]
  · have : a ∉ l := memB_false_iff.mp (Bool.eq_false_iff.mpr hm)
    simp [hm, List.nodup_cons, this, h]

lemma length_filter_le_of_imp {p q : String → Bool} (hpq : ∀ x, q x = true → p x = true) :
    ∀ l : List String, (l.filter q).length ≤ (l.filter p).length := by
  intro l
  induction l with
  | nil => simp
  | cons b t ih =>
    simp only [List.filter_cons]
    split_ifs with h1 h2 h3
    · simpa using ih
    · exact absurd (hpq b h1) h2
    · simp only [List.length_cons]
      exact Nat.le_succ_of_le ih
    · exact ih

lemma length_filter_lt {p q : String → Bool} (hpq : ∀ x, q x = true → p x = true)
    {a : String} (hpa : p a = true) (hqa : q a = false) :
    ∀ l : List String, a ∈ l → (l.filter q).length < (l.filter p).length := by
  intro l
  induction l with
  | nil => intro ha; cases ha
  | cons b t ih =>
    intro ha
    simp only [List.filter_cons]
    rcases List.mem_cons.mp ha with rfl | hat
    · rw [if_neg (by simp [hqa]), if_pos (by simp [hpa]), List.length_cons]
      exact Nat.lt_succ_of_le (length_filter_le_of_imp hpq t)
    · split_ifs with h1 h2 h3
      · simpa using ih hat
      · exact absurd (hpq b h1) h2
      · simp only [List.length_cons]
        exact Nat.lt_succ_of_lt (ih hat)
      · exact ih hat

lemma pyChoice_some {l : List String} (env : Env) (ctr : Nat) (h : l ≠ []) :
    ∃ k, pyChoice env ctr l = some k ∧ k ∈ l := by
  have hlt : env.pick ctr % l.length < l.length := Nat.mod_lt _ (List.length_pos.mpr h)
  refine ⟨l[env.pick ctr % l.length], ?_, List.getElem_mem hlt⟩
  simp [pyChoice, List.getElem?_eq_getElem hlt]

lemma pyChoice_mem {l : List String} {env : Env} {ctr : Nat} {k : String}
    (h : pyChoice env ctr l = some k) : k ∈ l := by
  unfold pyChoice at h
  obtain ⟨hlt, hk⟩ := List.getElem?_eq_some_iff.mp h
  exact hk ▸ List.getElem_mem hlt

lemma mem_availableOf {s : ClientState} {k : String} (h : k ∈ availableOf s) :
    k ∈ s.api_keys ∧ memB s.invalid_keys k = false := by
  unfold availableOf at h
  split_ifs at h
  · obtain ⟨hm, hp⟩ := List.mem_filter.mp h
    exact ⟨hm, by simpa using hp⟩
  · obtain ⟨hm, hp⟩ := List.mem_filter.mp h
    rw [Bool.and_eq_true] at hp
    exact ⟨hm, by simpa using hp.2⟩

lemma availableOf_ne_nil {s : ClientState} (hnd : s.api_keys.Nodup) (hinv : InvOK s)
    (hguard : ((avail0 s).isEmpty && (s.invalid_keys.length == s.api_keys.length)) = false) :
    availableOf s ≠ [] := by
  unfold availableOf
  by_cases h0 : (avail0 s).isEmpty
  · rw [if_pos h0]
    rw [h0, Bool.true_and] at hguard
    have hne : s.invalid_keys.length ≠ s.api_keys.length := by
      intro hlen
      rw [hlen] at hguard
      simp at hguard
    intro hempty
    have hsub : ∀ k ∈ s.api_keys, k ∈ s.invalid_keys := by
      intro k hk
      by_contra hni
      have : k ∈ s.api_keys.filter (fun k => !memB s.invalid_keys k) := by
        refine List.mem_filter.mpr ⟨hk, ?_⟩
        simp [memB_false_iff.mpr hni]
      rw [hempty] at this
      cases this
    have h1 : s.invalid_keys.length ≤ s.api_keys.length :=
      (List.subperm_of_subset hinv.1 hinv.2).length_le
    have h2 : s.api_keys.length ≤ s.invalid_keys.length :=
      (List.subperm_of_subset hnd hsub).length_le
    omega
  · rw [if_neg h0]
    intro hempty
    exact h0 (by simp [hempty])

lemma invOK_insert {s : ClientState} {sel : String} (hinv : InvOK s) (hmem : sel ∈ s.api_keys) :
    (setInsert s.invalid_keys sel).Nodup ∧ ∀ k ∈ setInsert s.invalid_keys sel, k ∈ s.api_keys := by
  refine ⟨setInsert_nodup hinv.1, ?_⟩
  intro k hk
  rcases mem_setInsert.mp hk with h1 | rfl
  · exact hinv.2 k h1
  · exact hmem

lemma invOK_rec {s : ClientState} {sel : String} (used1 : List String)
    (hinv : InvOK s) (hmem : sel ∈ s.api_keys) :
    InvOK { s with
            used_keys := used1
            invalid_keys := setInsert s.invalid_keys sel
            pickCtr := s.pickCtr + 1
            probeCtr := s.probeCtr + 1 } :=
  invOK_insert hinv hmem

lemma initClientFuel_ok (env : Env) : ∀ (fuel : Nat) (s s' : ClientState) (k : String),
    initClientFuel env fuel s = .ok (s', k) →
    s'.api_keys = s.api_keys ∧ k ∈ s.api_keys ∧ memB s'.invalid_keys k = false ∧
    memB s'.used_keys k = true ∧ s'.current_key = k ∧ (InvOK s → InvOK s') := by
  intro fuel
  induction fuel with
  | zero => intro s s' k h; simp [initClientFuel] at h
  | succ fuel ih =>
    intro s s' k h
    simp only [initClientFuel] at h
    by_cases hg : ((avail0 s).isEmpty && (s.invalid_keys.length == s.api_keys.length)) = true
    · rw [if_pos hg] at h
      exact Except.noConfusion h
    · rw [if_neg hg] at h
      cases hc : pyChoice env s.pickCtr (availableOf s) with
      | none =>
        simp only [hc] at h
        exact Except.noConfusion h
      | some selected =>
        simp only [hc] at h
        obtain ⟨hmemApi, hinvB⟩ := mem_availableOf (pyChoice_mem hc)
        by_cases hv : validateKey env s.probeCtr selected = true
        · rw [if_pos hv, Except.ok.injEq, Prod.mk.injEq] at h
          obtain ⟨h1, h2⟩ := h
          subst h1
          subst h2
          refine ⟨rfl, hmemApi, hinvB, ?_, rfl, fun hi => hi⟩
          exact memB_iff.mpr (mem_setInsert.mpr (Or.inr rfl))
        · rw [if_neg hv] at h
          have hrec := ih _ s' k h
          refine ⟨hrec.1, hrec.2.1, hrec.2.2.1, hrec.2.2.2.1, hrec.2.2.2.2.1, ?_⟩
          intro hi
          exact hrec.2.2.2.2.2 (invOK_rec _ hi hmemApi)

lemma poolLeft_insert_lt {s : ClientState} {sel : String} (used1 : List String)
    (hmem : sel ∈ s.api_keys) (hinv : memB s.invalid_keys sel = false) :
    poolLeft { s with
               used_keys := used1
               invalid_keys := setInsert s.invalid_keys sel
               pickCtr := s.pickCtr + 1
               probeCtr := s.probeCtr + 1 } < poolLeft s := by
  unfold poolLeft
  refine length_filter_lt ?_ ?_ ?_ s.api_keys hmem
  · intro x hx
    rw [Bool.not_eq_true'] at hx ⊢
    rw [memB_false_iff] at hx ⊢
    intro hmemx
    exact hx (mem_setInsert.mpr (Or.inl hmemx))
  · simp [hinv]
  · have hm : memB (setInsert s.invalid_keys sel) sel = true :=
      memB_iff.mpr (mem_setInsert.mpr (Or.inr rfl))
    simp [hm]

lemma initClientFuel_err (env : Env) : ∀ (fuel : Nat) (s : ClientState) (e : PyErr),
    poolLeft s < fuel → s.api_keys.Nodup → InvOK s →
    initClientFuel env fuel s = .error e →
    e = .groqApi "All API keys are invalid" none := by
  intro fuel
  induction fuel with
  | zero => intro s e hf _ _ _; exact absurd hf (Nat.not_lt_zero _)
  | succ fuel ih =>
    intro s e hf hnd hinv h
    simp only [initClientFuel] at h
    by_cases hg : ((avail0 s).isEmpty && (s.invalid_keys.length == s.api_keys.length)) = true
    · rw [if_pos hg, Except.error.injEq] at h
      exact h.symm
    · rw [if_neg hg] at h
      have hgB : ((avail0 s).isEmpty && (s.invalid_keys.length == s.api_keys.length)) = false :=
        Bool.eq_false_iff.mpr hg
      obtain ⟨sel, hc, hmem⟩ := pyChoice_some env s.pickCtr (availableOf_ne_nil hnd hinv hgB)
      simp only [hc] at h
      obtain ⟨hmemApi, hinvB⟩ := mem_availableOf hmem
      by_cases hv : validateKey env s.probeCtr sel = true
      · rw [if_pos hv] at h
        exact Except.noConfusion h
      · rw [if_neg hv] at h
        refine ih _ e ?_ ?_ ?_ h
        · have := poolLeft_insert_lt
            (if (avail0 s).isEmpty then [] else s.used_keys) hmemApi hinvB
          omega
        · exact hnd
        · exact invOK_rec _ hinv hmemApi

lemma initClientFuel_allReject (env : Env) (hrej : ∀ t k, validateKey env t k = false) :
    ∀ (fuel : Nat) (s : ClientState), poolLeft s < fuel → s.api_keys.Nodup → InvOK s →
    initClientFuel env fuel s = .error (.groqApi "All API keys are invalid" none) := by
  intro fuel
  induction fuel with
  | zero => intro s hf _ _; exact absurd hf (Nat.not_lt_zero _)
  | succ fuel ih =>
    intro s hf hnd hinv
    simp only [initClientFuel]
    by_cases hg : ((avail0 s).isEmpty && (s.invalid_keys.length == s.api_keys.length)) = true
    · rw [if_pos hg]
    · rw [if_neg hg]
      have hgB : ((avail0 s).isEmpty && (s.invalid_keys.length == s.api_keys.length)) = false :=
        Bool.eq_false_iff.mpr hg
      obtain ⟨sel, hc, hmem⟩ := pyChoice_some env s.pickCtr (availableOf_ne_nil hnd hinv hgB)
      simp only [hc]
      obtain ⟨hmemApi, hinvB⟩ := mem_availableOf hmem
      rw [if_neg (by simp [hrej])]
      apply ih
      · have := poolLeft_insert_lt
          (if (avail0 s).isEmpty then [] else s.used_keys) hmemApi hinvB
        omega
      · exact hnd
      · exact invOK_rec _ hinv hmemApi

lemma initializeClient_ok {env : Env} {s s' : ClientState} {k : String}
    (h : initializeClient env s = .ok (s', k)) :
    s'.api_keys = s.api_keys ∧ k ∈ s.api_keys ∧ memB s'.invalid_keys k = false ∧
    memB s'.used_keys k = true ∧ s'.current_key = k ∧ (InvOK s → InvOK s') :=
  initClientFuel_ok env _ s s' k h

lemma initializeClient_err {env : Env} {s : ClientState} {e : PyErr}
    (h : initializeClient env s = .error e) (hnd : s.api_keys.Nodup) (hinv : InvOK s) :
    e = .groqApi "All API keys are invalid" none :=
  initClientFuel_err env _ s e (Nat.lt_succ_self _) hnd hinv h

lemma stateOK_mark {s : ClientState} (hok : StateOK s) (b : Bool) :
    StateOK { s with invalid_keys := if b then setInsert s.invalid_keys s.current_key else s.invalid_keys } := by
  obtain ⟨hnd, ⟨hnd2, hsub⟩, hcur⟩ := hok
  refine ⟨hnd, ⟨?_, ?_⟩, hcur⟩
  · cases b
    · simpa using hnd2
    · simpa using setInsert_nodup hnd2
  · cases b
    · simpa using hsub
    · intro k hk
      rcases mem_setInsert.mp (by simpa using hk) with h1 | rfl
      · exact hsub k h1
      · exact hcur

lemma stateOK_init {env : Env} {s s' : ClientState} {k : String} (hok : StateOK s)
    (h : initializeClient env s = .ok (s', k)) : StateOK s' := by
  obtain ⟨hapi, hmem, hinvB, husd, hcur, hInv⟩ := initializeClient_ok h
  refine ⟨?_, hInv hok.2.1, ?_⟩
  · rw [hapi]
    exact hok.1
  · rw [hcur, hapi]
    exact hmem

lemma ccLoop_attempts (env : Env) : ∀ (fuel : Nat) (s : ClientState) (r : Nat),
    (ccLoop env fuel s r).1 ≤ r + fuel := by
  intro fuel
  induction fuel with
  | zero => intro s r; simp [ccLoop]
  | succ fuel ih =>
    intro s r
    cases hcall : env.call r with
    | ok content => simp [ccLoop, hcall]
    | exn m =>
      by_cases hf : 0 < fuel
      · cases hinit : initializeClient env { s with invalid_keys := if isAuthMsg m then setInsert s.invalid_keys s.current_key else s.invalid_keys } with
        | ok p =>
          obtain ⟨s2, k2⟩ := p
          have hred : ccLoop env (fuel + 1) s r = ccLoop env fuel s2 (r + 1) := by
            simp [ccLoop, hcall, hf, hinit]
          rw [hred]
          have := ih s2 (r + 1)
          omega
        | error e =>
          have hred : ccLoop env (fuel + 1) s r = (r + 1, .error e) := by
            simp [ccLoop, hcall, hf, hinit]
          rw [hred]
          simp
      · have hred : ccLoop env (fuel + 1) s r =
            (r + 1, .error (.groqApi "All API keys failed or are invalid" (some m))) := by
          simp [ccLoop, hcall, hf]
        rw [hred]
        simp

lemma ccLoop_allfail (env : Env) (hfail : ∀ i, ∃ m, env.call i = .exn m) :
    ∀ (fuel : Nat), 0 < fuel → ∀ (s : ClientState) (r : Nat), StateOK s →
    (∃ m, (ccLoop env fuel s r).2 = .error (.groqApi "All API keys failed or are invalid" (some m)) ∧
       env.call ((ccLoop env fuel s r).1 - 1) = .exn m) ∨
    (ccLoop env fuel s r).2 = .error (.groqApi "All API keys are invalid" none) := by
  intro fuel
  induction fuel with
  | zero => intro h0; exact absurd h0 (Nat.lt_irrefl 0)
  | succ fuel ih =>
    intro _ s r hok
    obtain ⟨m, hm⟩ := hfail r
    by_cases hf : 0 < fuel
    · cases hinit : initializeClient env { s with invalid_keys := if isAuthMsg m then setInsert s.invalid_keys s.current_key else s.invalid_keys } with
      | ok p =>
        obtain ⟨s2, k2⟩ := p
        have hred : ccLoop env (fuel + 1) s r = ccLoop env fuel s2 (r + 1) := by
          simp [ccLoop, hm, hf, hinit]
        rw [hred]
        exact ih hf s2 (r + 1) (stateOK_init (stateOK_mark hok (isAuthMsg m)) hinit)
      | error e =>
        have hred : ccLoop env (fuel + 1) s r = (r + 1, .error e) := by
          simp [ccLoop, hm, hf, hinit]
        rw [hred]
        right
        have he := initializeClient_err hinit hok.1 (stateOK_mark hok (isAuthMsg m)).2.1
        rw [he]
    · have hred : ccLoop env (fuel + 1) s r =
          (r + 1, .error (.groqApi "All API keys failed or are invalid" (some m))) := by
        simp [ccLoop, hm, hf]
      rw [hred]
      left
      exact ⟨m, rfl, by simpa using hm⟩

lemma ccLoop_success (env : Env) : ∀ (fuel : Nat) (s : ClientState) (r : Nat) (content : String),
    (ccLoop env fuel s r).2 = .ok (some content) →
    ∃ i, r ≤ i ∧ env.call i = .ok content ∧ (ccLoop env fuel s r).1 = i + 1 ∧
      ∀ j, r ≤ j → j < i → ∃ m, env.call j = .exn m := by
  intro fuel
  induction fuel with
  | zero => intro s r content h; simp [ccLoop] at h
  | succ fuel ih =>
    intro s r content h
    cases hcall : env.call r with
    | ok c =>
      have hred : ccLoop env (fuel + 1) s r = (r + 1, .ok (some c)) := by
        simp [ccLoop, hcall]
      rw [hred] at h ⊢
      simp only [Except.ok.injEq, Option.some.injEq] at h
      subst h
      exact ⟨r, le_refl r, hcall, rfl, fun j hj1 hj2 => absurd hj2 (by omega)⟩
    | exn m =>
      by_cases hf : 0 < fuel
      · cases hinit : initializeClient env { s with invalid_keys := if isAuthMsg m then setInsert s.invalid_keys s.current_key else s.invalid_keys } with
        | ok p =>
          obtain ⟨s2, k2⟩ := p
          have hred : ccLoop env (fuel + 1) s r = ccLoop env fuel s2 (r + 1) := by
            simp [ccLoop, hcall, hf, hinit]
          rw [hred] at h ⊢
          obtain ⟨i, hi1, hi2, hi3, hi4⟩ := ih s2 (r + 1) content h
          refine ⟨i, by omega, hi2, hi3, ?_⟩
          intro j hj1 hj2
          rcases Nat.eq_or_lt_of_le hj1 with rfl | hj3
          · exact ⟨m, hcall⟩
          · exact hi4 j (by omega) hj2
        | error e =>
          have hred : ccLoop env (fuel + 1) s r = (r + 1, .error e) := by
            simp [ccLoop, hcall, hf, hinit]
          rw [hred] at h
          exact Except.noConfusion h
      · have hred : ccLoop env (fuel + 1) s r =
            (r + 1, .error (.groqApi "All API keys failed or are invalid" (some m))) := by
          simp [ccLoop, hcall, hf]
        rw [hred] at h
        exact Except.noConfusion h


/-- Claim C1 (amended): for a well-formed client (distinct keys, current key in
the pool), `create_chat_completion` makes at most as many attempts as there
are credentials; if every attempt fails it fails with a `GroqAPIError` —
either "All API keys failed or are invalid" wrapping the message of the last
attempt's underlying error (budget spent), or "All API keys are invalid"
(reinitialization found every credential invalid first); and a successful
result is the raw response of the first non-failing attempt. -/
theorem c1_bounded_retry_failover (env : Env) (s : ClientState) (hok : StateOK s)
    (hn : 0 < s.api_keys.length) :
    (createChatCompletion env s).1 ≤ s.api_keys.length ∧
    ((∀ i, ∃ m, env.call i = .exn m) →
      (∃ m, (createChatCompletion env s).2 =
          .error (.groqApi "All API keys failed or are invalid" (some m)) ∧
        env.call ((createChatCompletion env s).1 - 1) = .exn m) ∨
      (createChatCompletion env s).2 = .error (.groqApi "All API keys are invalid" none)) ∧
    (∀ content, (createChatCompletion env s).2 = .ok (some content) →
      ∃ i, env.call i = .ok content ∧ (createChatCompletion env s).1 = i + 1 ∧
        ∀ j, j < i → ∃ m, env.call j = .exn m) := by
  refine ⟨?_, ?_, ?_⟩
  · have := ccLoop_attempts env s.api_keys.length s 0
    simpa [createChatCompletion] using this
  · intro hfail
    exact ccLoop_allfail env hfail s.api_keys.length hn s 0 hok
  · intro content h
    obtain ⟨i, _, hi2, hi3, hi4⟩ := ccLoop_success env s.api_keys.length s 0 content h
    exact ⟨i, hi2, hi3, fun j hj => hi4 j (Nat.zero_le j) hj⟩


/-- Witness for C1 at a concrete one-key client whose first attempt succeeds. -/
theorem c1_bounded_retry_failover_witness :
    (createChatCompletion envOkFirst oneKeyState).1 ≤ oneKeyState.api_keys.length ∧
    ((∀ i, ∃ m, envOkFirst.call i = .exn m) →
      (∃ m, (createChatCompletion envOkFirst oneKeyState).2 =
          .error (.groqApi "All API keys failed or are invalid" (some m)) ∧
        envOkFirst.call ((createChatCompletion envOkFirst oneKeyState).1 - 1) = .exn m) ∨
      (createChatCompletion envOkFirst oneKeyState).2 =
        .error (.groqApi "All API keys are invalid" none)) ∧
    (∀ content, (createChatCompletion envOkFirst oneKeyState).2 = .ok (some content) →
      ∃ i, envOkFirst.call i = .ok content ∧
        (createChatCompletion envOkFirst oneKeyState).1 = i + 1 ∧
        ∀ j, j < i → ∃ m, envOkFirst.call j = .exn m) :=
  c1_bounded_retry_failover envOkFirst oneKeyState ⟨by decide, ⟨by decide, by decide⟩, by decide⟩ (by decide)


/-- Counterexample to C1 as stated: with two distinct keys, a first attempt
failing with an auth error and every probe rejecting, the single (failing)
attempt ends in `GroqAPIError("All API keys are invalid")` raised by
`_initialize_client` — not the claimed `AllKeysExhaustedError` wrapping the
last underlying error. -/
theorem c1_wrapped_error_counterexample :
    createChatCompletion envAllFail cexState =
      (1, .error (.groqApi "All API keys are invalid" none)) ∧
    envAllFail.call 0 = .exn "Error code: 401 - invalid_api_key" ∧
    PyErr.groqApi "All API keys are invalid" none ≠
      PyErr.groqApi "All API keys failed or are invalid"
        (some "Error code: 401 - invalid_api_key") :=
  ⟨rfl, rfl, by decide⟩


/-- Claim C2: whenever `_initialize_client` returns a credential, that
credential is not in the invalid set of the resulting state and has been
marked used. -/
theorem c2_selection_never_invalid (env : Env) (s s' : ClientState) (k : String)
    (h : initializeClient env s = .ok (s', k)) :
    memB s'.invalid_keys k = false ∧ memB s'.used_keys k = true := by
  have hh := initializeClient_ok h
  exact ⟨hh.2.2.1, hh.2.2.2.1⟩


/-- Witness for C2 at a concrete one-key client whose probe succeeds. -/
theorem c2_selection_never_invalid_witness :
    initializeClient envOkFirst oneKeyState = .ok (oneKeyStateAfter, gskA) ∧
    memB oneKeyStateAfter.invalid_keys gskA = false ∧
    memB oneKeyStateAfter.used_keys gskA = true :=
  ⟨rfl, c2_selection_never_invalid envOkFirst oneKeyState oneKeyStateAfter gskA rfl⟩


/-- Claim C3 (amended): when the validation probe classifies every key as an
authentication rejection and the pool's credentials are distinct,
`_initialize_client` terminates (its recursion is bounded by the pool size —
the function is total at fuel `poolLeft + 1`) and fails with
`GroqAPIError("All API keys are invalid")`. -/
theorem c3_all_rejected_fails_allinvalid (env : Env) (s : ClientState)
    (hnd : s.api_keys.Nodup) (hinv : InvOK s)
    (hrej : ∀ t k, validateKey env t k = false) :
    initializeClient env s = .error (.groqApi "All API keys are invalid" none) :=
  initClientFuel_allReject env hrej _ s (Nat.lt_succ_self _) hnd hinv


/-- Witness for C3 at a concrete two-key pool with every probe rejected. -/
theorem c3_all_rejected_fails_allinvalid_witness :
    twoKeyState.api_keys.Nodup ∧ validateKey envAllFail 0 gskA = false ∧
    initializeClient envAllFail twoKeyState =
      .error (.groqApi "All API keys are invalid" none) :=
  ⟨by decide, rfl,
   c3_all_rejected_fails_allinvalid envAllFail twoKeyState (by decide) ⟨by decide, by decide⟩ (fun t k => rfl)⟩


/-- Counterexample to C3 as stated: a pool holding the same valid-format key
twice (the constructor does not deduplicate), with every probe rejected,
terminates with an `IndexError` from `random.choice` on an empty list — not
with `GroqAPIError("All API keys are invalid")` — because the
`len(invalid) == len(api_keys)` guard compares a set's size against a list's
length. -/
theorem c3_duplicate_pool_counterexample :
    initializeClient envAllFail dupState = .error .indexError ∧
    validateKey envAllFail 0 gskA = false ∧
    PyErr.indexError ≠ .groqApi "All API keys are invalid" none :=
  ⟨rfl, rfl, by decide⟩


/-- Claim C10: because missing fields normalize to the empty string and the
emails/mobile columns are UNIQUE over TEXT values, two records that both
lack an email (or both lack a mobile) conflict on that empty string: only
the first is stored and the second is skipped, with `(1, 2)` returned. -/
theorem c10_empty_contact_unique_conflict :
    (∀ (t : String) (r1 r2 : List (String × Json)),
       normField r1 "Emails" = "" → normField r2 "Emails" = "" →
       insert_to_db t [] [r1, r2] = ([mkRow t r1], 1, 2)) ∧
    (∀ (t : String) (r1 r2 : List (String × Json)),
       normField r1 "Mobile" = "" → normField r2 "Mobile" = "" →
       insert_to_db t [] [r1, r2] = ([mkRow t r1], 1, 2)) := by
  constructor
  · intro t r1 r2 h1 h2
    exact insert_pair_skip t r1 r2 (email_eq_conflict t r1 r2 (h1.trans h2.symm))
  · intro t r1 r2 h1 h2
    exact insert_pair_skip t r1 r2 (mobile_eq_conflict t r1 r2 (h1.trans h2.symm))


/-- Witness for C10 at concrete records lacking the email (resp. mobile) field. -/
theorem c10_empty_contact_unique_conflict_witness :
    normField recCarol "Emails" = "" ∧ normField recDan "Emails" = "" ∧
    normField recCarol "Mobile" = "333" ∧ normField recDan "Mobile" = "444" ∧
    insert_to_db ts0 [] [recCarol, recDan] = ([mkRow ts0 recCarol], 1, 2) ∧
    normField recEve "Mobile" = "" ∧ normField recFrank "Mobile" = "" ∧
    insert_to_db ts0 [] [recEve, recFrank] = ([mkRow ts0 recEve], 1, 2) :=
  ⟨rfl, rfl, rfl, rfl, c10_empty_contact_unique_conflict.1 ts0 recCarol recDan rfl rfl,
   rfl, rfl, c10_empty_contact_unique_conflict.2 ts0 recEve recFrank rfl rfl⟩


/-- Witness for C8 discharging the general clauses at concrete values. -/
theorem c8_field_normalization_witness :
    normalizeValue (Json.num 7) = pyStr (Json.num 7) ∧
    normalize_data (Json.bool true) = pyStr (Json.bool true) ∧
    rowValue [] "Graduation" = "" ∧
    normField [] "Emails" = "" :=
  ⟨(c8_field_normalization.2.2.2.1 (Json.num 7) rfl rfl).1,
   (c8_field_normalization.2.2.2.1 (Json.bool true) rfl rfl).2,
   c8_field_normalization.2.2.2.2.1 [] "Graduation" rfl,
   c8_field_normalization.2.2.2.2.2.1 [] "Emails" rfl⟩
